import Mathlib

/-!
Shallow embedding of the message content-filtering engine of
src/m_censorplus.cpp (class ModuleCensor of the inspircd-mods-contrib
repository).

Strings are modelled as lists of byte values (Nat), matching the byte-wise
std::string processing of the source.  External collaborators are modelled
at their interface: the C library ctype functions in the default C locale,
the Hyperscan streaming scanner by its documented match semantics on a
literal pattern, and the ICU whole-string matchers as boolean functions.
-/

namespace CensorPlus

abbrev Str := List Nat

/-!
C library character classification in the default C locale.  The source
calls std::isalpha, std::islower and std::isupper on single bytes cast to
unsigned char (m_censorplus.cpp lines 115-116); the program never calls
setlocale, so only the ASCII letters are alphabetic, lower or upper.
-/

def c_isalpha (c : Nat) : Bool :=
  (65 ≤ c && c ≤ 90) || (97 ≤ c && c ≤ 122)

def c_islower (c : Nat) : Bool := 97 ≤ c && c ≤ 122

def c_isupper (c : Nat) : Bool := 65 ≤ c && c ≤ 90

/-!
ModuleCensor::IsMixedUTF8 (m_censorplus.cpp lines 104-126): iterate the
bytes of the text; bytes below 128 are skipped; an alphabetic byte is
classified as latin when it is lower or upper case, otherwise nonlatin;
the first classified byte fixes the detected bucket and a later byte of
the other bucket returns true at once.
-/

inductive ScriptType where
  | unknown
  | latin
  | nonlatin
deriving DecidableEq

def mixedLoop : Str → ScriptType → Bool
  | [], _ => false
  | c :: rest, detected =>
    if c < 128 then mixedLoop rest detected
    else if c_isalpha c then
      let current := if c_islower c || c_isupper c then ScriptType.latin else ScriptType.nonlatin
      match detected with
      | ScriptType.unknown => mixedLoop rest current
      | d => if d ≠ current then true else mixedLoop rest d
    else mixedLoop rest detected

def IsMixedUTF8 (text : Str) : Bool :=
  if text = [] then false
  else mixedLoop text ScriptType.unknown

/-!
The national casemap of InspIRCd v4 with the default casemapping (ascii):
the upper-case letters 65-90 map onto the lower-case letters 97-122 and no
other bytes are identified.  It underlies both irc::find (line 285) and
irc::insensitive_swo (the CensorMap comparator, line 19).
-/

def foldIrc (c : Nat) : Nat :=
  if 65 ≤ c ∧ c ≤ 90 then c + 32 else c

def foldStr (s : Str) : Str := s.map foldIrc

/-- The needle matches the haystack at offset i under the casemap. -/
def matchesAt (hay needle : Str) (i : Nat) : Bool :=
  decide (i + needle.length ≤ hay.length) &&
    (foldStr ((hay.drop i).take needle.length) == foldStr needle)

/-- irc::find: position of the first casemapped occurrence of the needle. -/
def ircFind (hay needle : Str) : Option Nat :=
  (List.range (hay.length + 1)).find? (matchesAt hay needle)

/-- Lexicographic strict order on byte lists (std lexicographical compare). -/
def lexLt : Str → Str → Bool
  | _, [] => false
  | [], _ :: _ => true
  | a :: as, b :: bs => if a < b then true else if b < a then false else lexLt as bs

/-- irc::insensitive_swo: lexicographic order under the casemap. -/
def swoLt (a b : Str) : Bool := lexLt (foldStr a) (foldStr b)

/-!
CensorMap (line 19) is insp::flat_map keyed by irc::insensitive_swo: a
sorted association list, iterated in ascending key order.  The subscript
assignment of ReadConfig (line 194) keeps the existing key and overwrites
the value when an equivalent key is inserted.
-/

def mapInsert : List (Str × Str) → Str → Str → List (Str × Str)
  | [], k, v => [(k, v)]
  | (k0, v0) :: rest, k, v =>
    if foldStr k = foldStr k0 then (k0, v) :: rest
    else if swoLt k k0 then (k, v) :: (k0, v0) :: rest
    else (k0, v0) :: mapInsert rest k v

def buildCensorMap (tags : List (Str × Str)) : List (Str × Str) :=
  tags.foldl (fun m kv => mapInsert m kv.1 kv.2) []

/-- std::string::replace(pos, len, repl). -/
def strReplace (s : Str) (pos len : Nat) (repl : Str) : Str :=
  s.take pos ++ repl ++ s.drop (pos + len)

/-!
The banned-phrase substitution loop of OnUserPreMessage (lines 283-309).
The loop on one rule repeatedly locates the phrase with irc::find and
either denies (empty replacement) or substitutes in place.  The model is
fuel-indexed because the source loop need not terminate; maxSize models
the std::string capacity bound at which replace raises std::length_error
(caught at line 311).
-/

inductive CensorOut where
  /-- The rule loop finished: no further occurrence of any phrase. -/
  | done (text : Str)
  /-- MOD_RES_DENY returned for an empty-replacement rule (line 305). -/
  | denied (phrase : Str) (text : Str)
  /-- std::string::replace raised (size beyond maxSize); text at the raise. -/
  | exn (text : Str)
  /-- Fuel exhausted: the source loop has not finished within the bound. -/
  | hang
deriving DecidableEq

def CensorOut.isDone : CensorOut → Bool
  | .done _ => true
  | _ => false

def runRule (maxSize : Nat) (phrase repl : Str) : Nat → Str → CensorOut
  | 0, _ => .hang
  | fuel + 1, text =>
    match ircFind text phrase with
    | none => .done text
    | some pos =>
      if repl = [] then .denied phrase text
      else
        let next := strReplace text pos phrase.length repl
        if maxSize < next.length then .exn text
        else runRule maxSize phrase repl fuel next

def runRules (maxSize fuel : Nat) : List (Str × Str) → Str → CensorOut
  | [], text => .done text
  | (phrase, repl) :: rest, text =>
    match runRule maxSize phrase repl fuel text with
    | .done t => runRules maxSize fuel rest t
    | out => out

/-!
Hyperscan streaming scan (ModuleCensor::IsMatch, lines 96-102).  The
single stream is opened once in ReadConfig (line 226) and never reset; a
scan appends the text to the stream and reports a match when an occurrence
of the pattern ends inside the newly written bytes.  The whitelist pattern
is modelled as a literal byte pattern in unanchored search mode.
-/

def hsScanStream (strm pat text : Str) : Bool :=
  let whole := strm ++ text
  (List.range (whole.length + 1)).any fun p =>
    decide (p + pat.length ≤ whole.length) &&
    ((whole.drop p).take pat.length == pat) &&
    decide (strm.length < p + pat.length)

def IsMatch (strm db text : Str) : Bool := hsScanStream strm db text

/-!
Configuration-derived state of the module: the compiled whitelist literal,
the two ICU whole-string matchers, and the censor map.  The mutable stream
accumulator is passed separately.
-/

structure PatternConfig where
  whitelistLit : Str
  emojiFull : Str → Bool
  kiwiFull : Str → Bool
  censors : List (Str × Str)

/-!
ModuleCensor::IsAllowed (lines 154-166): printable-ASCII fast path, then
the Hyperscan stream scan, then the ICU whole-string matchers.  Returns
the verdict and the stream state after the call (the fast path does not
touch the stream).
-/

def IsAllowed (cfg : PatternConfig) (strm : Str) (text : Str) : Bool × Str :=
  if text.all (fun c => decide (32 ≤ c) && decide (c ≤ 126)) then (true, strm)
  else if IsMatch strm cfg.whitelistLit text then (true, strm ++ text)
  else (cfg.emojiFull text || cfg.kiwiFull text, strm ++ text)

inductive ModResult where
  | passthru
  | deny
  | allow
deriving DecidableEq

inductive MsgTarget where
  | toUser (modeSet : Bool)
  | toChannel (modeSet : Bool) (exemption : ModResult)
  | toServer
deriving DecidableEq

/-- The target switch of OnUserPreMessage (lines 240-261): true when the
checks fall through to the filtering body, false when they return
MOD_RES_PASSTHRU. -/
def targetGate : MsgTarget → Bool
  | .toUser modeSet => modeSet
  | .toChannel modeSet exemption => modeSet && !(exemption == ModResult.allow)
  | .toServer => false

structure MsgContext where
  isLocal : Bool
  isOper : Bool
  target : MsgTarget
deriving DecidableEq

structure HookResult where
  verdict : ModResult
  text : Str
  stream : Str
deriving DecidableEq

/-!
ModuleCensor::OnUserPreMessage (lines 231-316).  Result none models fuel
exhaustion (the source call has not returned within the bound); otherwise
the returned verdict, the message text after in-place rewrites, and the
Hyperscan stream state.  A raise inside the try block is caught at line
311, logged, and falls through to return MOD_RES_PASSTHRU at line 315.
-/

def OnUserPreMessage (maxSize fuel : Nat) (cfg : PatternConfig) (ctx : MsgContext)
    (strm : Str) (text : Str) : Option HookResult :=
  if !ctx.isLocal then some ⟨.passthru, text, strm⟩
  else if ctx.isOper then some ⟨.passthru, text, strm⟩
  else if !targetGate ctx.target then some ⟨.passthru, text, strm⟩
  else if IsMixedUTF8 text then some ⟨.deny, text, strm⟩
  else if !(IsAllowed cfg strm text).1 then some ⟨.deny, text, (IsAllowed cfg strm text).2⟩
  else
    match runRules maxSize fuel cfg.censors text with
    | .done t => some ⟨.passthru, t, (IsAllowed cfg strm text).2⟩
    | .denied _ t => some ⟨.deny, t, (IsAllowed cfg strm text).2⟩
    | .exn t => some ⟨.passthru, t, (IsAllowed cfg strm text).2⟩
    | .hang => none

/-!
The whitelist cache step of ReadConfig (lines 215-220): when reading the
serialized database fails, recompile; when the compile or the write-back
of the serialized form fails, throw ModuleException.  The three oracles
stand for DeserializeDatabase, CompileRegex and SerializeDatabase.
-/

def whitelistCacheLoad (deserOk compileOk serOk : Bool) : Except String Unit :=
  if deserOk then .ok ()
  else if !compileOk || !serOk then
    .error "Failed to compile or serialize whitelist regex pattern for Hyperscan"
  else .ok ()

/-- True when the configuration load step did not throw. -/
def exceptOk : Except String Unit → Bool
  | .ok _ => true
  | .error _ => false

/-! ### Helper lemmas -/

lemma foldIrc_idem (c : Nat) : foldIrc (foldIrc c) = foldIrc c := by
  by_cases h : 65 ≤ c ∧ c ≤ 90
  · have h1 : foldIrc c = c + 32 := by simp [foldIrc, h]
    rw [h1]
    simp only [foldIrc]
    rw [if_neg (by omega)]
  · have h1 : foldIrc c = c := by simp [foldIrc, h]
    rw [h1, h1]

lemma foldStr_idem (s : Str) : foldStr (foldStr s) = foldStr s := by
  induction s with
  | nil => rfl
  | cons c rest ih =>
    simp only [foldStr, List.map_cons] at *
    rw [foldIrc_idem]
    exact congrArg _ (by simpa [foldStr] using ih)

lemma matchesAt_fold (hay needle : Str) (i : Nat) :
    matchesAt (foldStr hay) (foldStr needle) i = matchesAt hay needle i := by
  simp only [matchesAt, foldStr, List.length_map]
  congr 1
  rw [← List.map_drop, ← List.map_take]
  have h1 := foldStr_idem ((hay.drop i).take needle.length)
  have h2 := foldStr_idem needle
  simp only [foldStr] at h1 h2
  rw [h1, h2]

lemma ircFind_fold (hay needle : Str) :
    ircFind hay needle = ircFind (foldStr hay) (foldStr needle) := by
  simp only [ircFind, foldStr, List.length_map]
  congr 1
  funext i
  simpa [foldStr] using (matchesAt_fold hay needle i).symm

lemma ircFind_mem97 (text : Str) (h : 97 ∈ text) : (ircFind text [97]).isSome = true := by
  rcases List.mem_iff_getElem.mp h with ⟨i, hi, hg⟩
  have hp : matchesAt text [97] i = true := by
    have hdrop : text.drop i = text[i] :: text.drop (i + 1) := List.drop_eq_getElem_cons hi
    simp [matchesAt, hdrop, hg, foldStr, foldIrc]
    omega
  rw [ircFind]
  cases hf : (List.range (text.length + 1)).find? (matchesAt text [97]) with
  | some v => rfl
  | none =>
    exfalso
    have := List.find?_eq_none.mp hf i (List.mem_range.mpr (by omega))
    exact this hp

lemma runRule_aa_never_done (fuel : Nat) : ∀ (maxSize : Nat) (text : Str), 97 ∈ text →
    (runRule maxSize [97] [97, 97] fuel text).isDone = false := by
  induction fuel with
  | zero => intro maxSize text _; rfl
  | succ n ih =>
    intro maxSize text hmem
    rw [runRule]
    cases hf : ircFind text [97] with
    | none =>
      exfalso
      have := ircFind_mem97 text hmem
      rw [hf] at this
      exact Bool.noConfusion this
    | some pos =>
      simp only []
      rw [if_neg (by simp : ¬ ([97, 97] : Str) = [])]
      by_cases hs : maxSize < (strReplace text pos ([97] : Str).length [97, 97]).length
      · rw [if_pos hs]; rfl
      · rw [if_neg hs]
        exact ih maxSize _ (by simp [strReplace])

lemma runRule_denied_inv (maxSize : Nat) (phrase repl : Str) (fuel : Nat) :
    ∀ (text p t : Str), runRule maxSize phrase repl fuel text = .denied p t →
      p = phrase ∧ repl = [] ∧ (ircFind t p).isSome = true := by
  induction fuel with
  | zero => intro text p t h; exact absurd h (by rw [runRule]; intro h; exact CensorOut.noConfusion h)
  | succ n ih =>
    intro text p t h
    rw [runRule] at h
    cases hf : ircFind text phrase with
    | none => rw [hf] at h; exact absurd h (by intro h; exact CensorOut.noConfusion h)
    | some pos =>
      rw [hf] at h
      dsimp only at h
      by_cases hr : repl = []
      · rw [if_pos hr] at h
        injection h with h1 h2
        subst h1; subst h2
        exact ⟨rfl, hr, by rw [hf]; rfl⟩
      · rw [if_neg hr] at h
        by_cases hs : maxSize < (strReplace text pos phrase.length repl).length
        · rw [if_pos hs] at h; exact absurd h (by intro h; exact CensorOut.noConfusion h)
        · rw [if_neg hs] at h
          exact ih _ p t h

lemma runRules_denied_inv (maxSize fuel : Nat) :
    ∀ (rules : List (Str × Str)) (text p t : Str),
      runRules maxSize fuel rules text = .denied p t →
        (p, ([] : Str)) ∈ rules ∧ (ircFind t p).isSome = true := by
  intro rules
  induction rules with
  | nil => intro text p t h; exact absurd h (by rw [runRules]; intro h; exact CensorOut.noConfusion h)
  | cons pr rest ih =>
    intro text p t h
    obtain ⟨phrase, repl⟩ := pr
    rw [runRules] at h
    cases hr : runRule maxSize phrase repl fuel text with
    | done t0 =>
      rw [hr] at h
      rcases ih t0 p t h with ⟨hmem, hfind⟩
      exact ⟨List.mem_cons_of_mem _ hmem, hfind⟩
    | denied p0 t0 =>
      rw [hr] at h
      injection h with h1 h2
      rcases runRule_denied_inv maxSize phrase repl fuel text p0 t0 hr with ⟨hp, hrep, hfind⟩
      subst h1; subst h2
      rw [hp]
      exact ⟨by rw [← hrep]; exact List.mem_cons_self _ _, by rw [← hp]; exact hfind⟩
    | exn t0 => rw [hr] at h; exact absurd h (by intro h; exact CensorOut.noConfusion h)
    | hang => rw [hr] at h; exact absurd h (by intro h; exact CensorOut.noConfusion h)

/-! ### Claim theorems -/

/-- Claim C1, counterexample: when an internal failure (here: the
substitution loop exceeding the string capacity bound, so that
std::string::replace raises) occurs during evaluation, the call returns
MOD_RES_PASSTHRU, not the verdict Denied — the original claim, which
requires Denied on any unexpected internal failure, is false on the code. -/
theorem C1_counterexample_exception_allows :
    OnUserPreMessage 3 10 ⟨[], fun _ => false, fun _ => false, [([97], [97, 97])]⟩
      ⟨true, false, .toChannel true .passthru⟩ [] [97] =
      some ⟨ModResult.passthru, [97, 97, 97], []⟩ ∧
    ModResult.passthru ≠ ModResult.deny :=
  ⟨by decide, by decide⟩

/-- Claim C1, amended: no exception escapes the Evaluate boundary — the
body is wrapped in a catch-all handler that logs — but an unexpected
internal failure during evaluation resolves to MOD_RES_PASSTHRU (the
message continues, with whatever partial rewrites were applied), never to
the verdict Denied. -/
theorem C1_amended_exception_passthru (maxSize fuel : Nat) (cfg : PatternConfig)
    (ctx : MsgContext) (strm text t : Str)
    (hloc : ctx.isLocal = true) (hop : ctx.isOper = false)
    (hgate : targetGate ctx.target = true)
    (hmix : IsMixedUTF8 text = false)
    (hok : (IsAllowed cfg strm text).1 = true)
    (hexn : runRules maxSize fuel cfg.censors text = .exn t) :
    OnUserPreMessage maxSize fuel cfg ctx strm text =
      some ⟨ModResult.passthru, t, (IsAllowed cfg strm text).2⟩ := by
  simp only [OnUserPreMessage, hloc, hop, hgate, hmix, hok, hexn]
  simp

/-- Witness for C1: at a concrete configuration whose substitution loop
raises, the hook returns passthru with the partially rewritten text. -/
theorem C1_amended_exception_passthru_witness :
    OnUserPreMessage 3 10 ⟨[], fun _ => false, fun _ => false, [([98], [98, 98])]⟩
      ⟨true, false, .toChannel true .passthru⟩ [] [98] =
      some ⟨ModResult.passthru, [98, 98, 98],
        (IsAllowed ⟨[], fun _ => false, fun _ => false, [([98], [98, 98])]⟩ [] [98]).2⟩ :=
  C1_amended_exception_passthru 3 10 _ _ [] [98] [98, 98, 98] rfl rfl rfl rfl rfl (by decide)

/-- Claim C2, counterexample: with rules ("aa" to "qq") and ("zz" to deny)
and input "aa zz", the verdict is Denied but the message text retains the
rewrite of the earlier rule ("qq zz"), so replacements already applied are
not discarded and the text is not left equal to the original input. -/
theorem C2_counterexample_text_not_restored :
    OnUserPreMessage 1000 10 ⟨[], fun _ => false, fun _ => false,
        buildCensorMap [([97, 97], [113, 113]), ([122, 122], [])]⟩
      ⟨true, false, .toChannel true .passthru⟩ [] [97, 97, 32, 122, 122] =
      some ⟨ModResult.deny, [113, 113, 32, 122, 122], []⟩ ∧
    ([113, 113, 32, 122, 122] : Str) ≠ [97, 97, 32, 122, 122] :=
  ⟨by decide, by decide⟩

/-- Claim C2, amended: when the phrase substitution pass ends in a denial,
the denying phrase belongs to an empty-replacement rule of the rule set
and still occurs in the text at the moment of denial — the verdict is
Denied, never a partially rewritten Allowed — but replacements already
applied by earlier rules in the same pass are not undone. -/
theorem C2_amended_denial_semantics (maxSize fuel : Nat) (rules : List (Str × Str))
    (text p t : Str) (h : runRules maxSize fuel rules text = .denied p t) :
    (p, ([] : Str)) ∈ rules ∧ (ircFind t p).isSome = true :=
  runRules_denied_inv maxSize fuel rules text p t h

/-- Witness for C2: the single empty-replacement rule "bad" denies the
input "bad". -/
theorem C2_amended_denial_semantics_witness :
    (([98, 97, 100], ([] : Str)) ∈ [(([98, 97, 100] : Str), ([] : Str))]) ∧
    (ircFind [98, 97, 100] [98, 97, 100]).isSome = true :=
  C2_amended_denial_semantics 1000 10 [([98, 97, 100], [])] [98, 97, 100]
    [98, 97, 100] [98, 97, 100] (by decide)

/-- Claim C3: the Hyperscan stream opened once in ReadConfig is never
reset between messages, so the whitelist outcome of a message depends on
previously scanned messages.  With the whitelist pattern for the literal
"éé" (bytes 195 169 195 169), the message "é" evaluated alone is not
allowed by IsMatch, yet the same message evaluated after a previous "é"
matches across the stream boundary and is allowed — refuting the claimed
independence from earlier messages. -/
theorem C3_stream_state_leaks :
    (IsAllowed ⟨[195, 169, 195, 169], fun _ => false, fun _ => false, []⟩ [] [195, 169]).1
      = false ∧
    (IsAllowed ⟨[195, 169, 195, 169], fun _ => false, fun _ => false, []⟩ [] [195, 169]).2
      = [195, 169] ∧
    (IsAllowed ⟨[195, 169, 195, 169], fun _ => false, fun _ => false, []⟩
      [195, 169] [195, 169]).1 = true :=
  ⟨by decide, by decide, by decide⟩

/-- Claim C4: IsMixedUTF8 applies std::isalpha to single bytes in the
default C locale, where no byte at or above 128 is alphabetic, so it
returns false on every input: false on "", false on "hello", false on the
UTF-8 bytes of "helloД" (where the claim expects true), and false on the
UTF-8 bytes of "ДобрыйДень". -/
theorem C4_mixed_script_always_false :
    IsMixedUTF8 [] = false ∧
    IsMixedUTF8 [104, 101, 108, 108, 111] = false ∧
    IsMixedUTF8 [104, 101, 108, 108, 111, 208, 148] = false ∧
    IsMixedUTF8 [208, 148, 208, 190, 208, 177, 209, 128, 209, 139, 208, 185,
      208, 148, 208, 181, 208, 189, 209, 140] = false :=
  ⟨by decide, by decide, by decide, by decide⟩

/-- Claim C5, counterexample: when reading the cache fails, compilation
succeeds, and writing the cache back fails, ReadConfig throws
ModuleException — the load does not succeed, so a cache write failure is
fatal, contrary to the claim. -/
theorem C5_counterexample_cache_write_fatal :
    whitelistCacheLoad false true false =
      Except.error "Failed to compile or serialize whitelist regex pattern for Hyperscan" ∧
    exceptOk (whitelistCacheLoad false true false) = false :=
  ⟨rfl, rfl⟩

/-- Claim C5, amended: a failure to read the cache is non-fatal and
compilation proceeds in memory, but a failure to write the recompiled
database back is fatal: when compilation succeeds, the load succeeds
exactly when the cache read succeeds or the cache write succeeds. -/
theorem C5_amended_cache_read_nonfatal (deserOk compileOk serOk : Bool)
    (h : compileOk = true) :
    exceptOk (whitelistCacheLoad deserOk compileOk serOk) = true ↔
      (deserOk = true ∨ serOk = true) := by
  subst h
  cases deserOk <;> cases serOk <;> simp [whitelistCacheLoad, exceptOk]

/-- Witness for C5: a cache read failure with successful compile and
write lets the load succeed. -/
theorem C5_amended_cache_read_nonfatal_witness :
    exceptOk (whitelistCacheLoad false true true) = true :=
  (C5_amended_cache_read_nonfatal false true true rfl).mpr (Or.inr rfl)

/-- Claim C6: with the rule ("a" to "aa"), whose replacement contains the
phrase, and input "a", the substitution loop never finishes normally: for
every fuel bound and every string capacity bound, the run is never a
completed pass — it either raises on the capacity bound or is still
looping — refuting the claimed termination of the loop. -/
theorem C6_substitution_loop_never_finishes (fuel maxSize : Nat) :
    (runRule maxSize [97] [97, 97] fuel [97]).isDone = false :=
  runRule_aa_never_done fuel maxSize [97] (by simp)

/-- Claim C7: for every pattern configuration, stream state and text all
of whose bytes lie in the printable ASCII range 32 to 126 (the empty text
included), IsAllowed returns true and leaves the stream untouched — no
compiled matcher is invoked. -/
theorem C7_ascii_fast_path (cfg : PatternConfig) (strm text : Str)
    (h : text.all (fun c => decide (32 ≤ c) && decide (c ≤ 126)) = true) :
    IsAllowed cfg strm text = (true, strm) := by
  simp only [IsAllowed, h]
  simp

/-- Witness for C7: the ASCII text "hi" is allowed without touching the
stream. -/
theorem C7_ascii_fast_path_witness :
    IsAllowed ⟨[], fun _ => false, fun _ => false, []⟩ [] [104, 105] = (true, []) :=
  C7_ascii_fast_path _ [] [104, 105] (by decide)

/-- Claim C8: with the rules ("foo" to deny) and ("foobar" to "baz") and
input "this has foobar in it", the pass returns Denied with matched
phrase "foo", not a rewrite: the censor map iterates in its sorted
case-insensitive order, so the empty-replacement rule "foo" is scanned
first and wins. -/
theorem C8_rejection_precedence :
    runRules 1000 10
      (buildCensorMap [([102, 111, 111], []), ([102, 111, 111, 98, 97, 114], [98, 97, 122])])
      [116, 104, 105, 115, 32, 104, 97, 115, 32, 102, 111, 111, 98, 97, 114, 32,
        105, 110, 32, 105, 116] =
      .denied [102, 111, 111]
        [116, 104, 105, 115, 32, 104, 97, 115, 32, 102, 111, 111, 98, 97, 114, 32,
          105, 110, 32, 105, 116] :=
  by decide

/-- Claim C9: with the single rule ("bad" to "good") and input
"this is bad, very bad", the pass completes with the rewritten text
"this is good, very good" — every case-insensitive occurrence of the
phrase is replaced, not only the first. -/
theorem C9_rewrite_all_occurrences :
    runRules 1000 10 (buildCensorMap [([98, 97, 100], [103, 111, 111, 100])])
      [116, 104, 105, 115, 32, 105, 115, 32, 98, 97, 100, 44, 32, 118, 101, 114,
        121, 32, 98, 97, 100] =
      .done [116, 104, 105, 115, 32, 105, 115, 32, 103, 111, 111, 100, 44, 32, 118,
        101, 114, 121, 32, 103, 111, 111, 100] :=
  by decide

/-- Claim C10, counterexample: under the default casemapping of InspIRCd
v4 (ascii), the bytes 91-93 are not identified with 123-125, so a rule for
the phrase "[x]" does not locate the substring "{x}": the pass over the
message "a{x}b" completes without a denial and irc::find returns no
position — refuting the claimed bracket-pair folding. -/
theorem C10_counterexample_brackets_not_folded :
    runRules 1000 10 (buildCensorMap [([91, 120, 93], [])]) [97, 123, 120, 125, 98] =
      .done [97, 123, 120, 125, 98] ∧
    ircFind [97, 123, 120, 125, 98] [91, 120, 93] = none :=
  ⟨by decide, by decide⟩

/-- Claim C10, amended: phrase location and rule keying use the national
casemap, which with the default v4 casemapping (ascii) identifies exactly
the ASCII upper and lower case letter pairs and keeps the bracket pairs
91/123, 92/124 and 93/125 distinct; irc::find is invariant under folding
both arguments; inserting two phrases that differ only in letter case
yields one rule; and a rule for the phrase "BAD" (empty replacement)
denies the message "a bad". -/
theorem C10_amended_ascii_casefold :
    (List.range 26).all (fun k => foldIrc (65 + k) == foldIrc (97 + k)) = true ∧
    foldIrc 91 ≠ foldIrc 123 ∧ foldIrc 92 ≠ foldIrc 124 ∧ foldIrc 93 ≠ foldIrc 125 ∧
    (∀ hay needle : Str, ircFind hay needle = ircFind (foldStr hay) (foldStr needle)) ∧
    buildCensorMap [([70, 79, 79], [49]), ([102, 111, 111], [50])] = [([70, 79, 79], [50])] ∧
    runRules 1000 10 (buildCensorMap [([66, 65, 68], [])]) [97, 32, 98, 97, 100] =
      .denied [66, 65, 68] [97, 32, 98, 97, 100] :=
  ⟨by decide, by decide, by decide, by decide, ircFind_fold, by decide, by decide⟩

end CensorPlus
